import Mathlib

/-!
Shallow embedding of the `FixedSizedStack` container defined in
`src/examples/advanced/unsafe_ops.rs` of the `rust-intuition` repository,
together with proofs of the specification claims about it.

The Rust struct is
  `struct FixedSizedStack<T, const N: usize> { pointer: *mut T, curr_size: usize }`
where `pointer` is a raw pointer to a heap block of `N * sizeof(T)` bytes
obtained from `libc::malloc`.  The embedding makes the heap block explicit:
the field `pointer : Bool` records whether the raw pointer is non-null
(i.e. whether the block is currently allocated to this stack), and
`buf : List (Option α)` holds the contents of that block, one entry per
slot, with `none` standing for an uninitialized slot (fresh `malloc`
memory that has never been written).  When the pointer is null the block
does not exist and `buf` is `[]`.

Raw pointers returned by `pop` are modelled as slot indices into the live
block: the Rust value `self.pointer.add(i)` becomes `some i`, and the null
pointer becomes `none`.  Dereferencing such a pointer in a given state is
`readPtr`.  Diagnostics printed with `println!` are modelled as `Notice`
values emitted alongside the state.
-/

namespace UnsafeOps

/-- A diagnostic notice printed by the container with `println!`. -/
inductive Notice where
  /-- the message printed when a push is attempted on a full stack -/
  | pushStackFull : Notice
  /-- the message printed when a pop is attempted on an empty stack -/
  | popStackEmpty : Notice
deriving DecidableEq

/-- State of a `FixedSizedStack<T, N>`.  `pointer` is `true` iff the raw
pointer is non-null; `buf` is the contents of the heap block it points to
(`[]` when the pointer is null), each slot `none` while uninitialized;
`curr_size` is the `curr_size` field of the Rust struct. -/
structure FixedSizedStack (α : Type) (N : Nat) where
  pointer : Bool
  buf : List (Option α)
  curr_size : Nat
deriving DecidableEq

namespace FixedSizedStack

variable {α : Type} {N : Nat}

/-- `FixedSizedStack::new`: allocate a block of `N` slots with
`libc::malloc` and start with `curr_size = 0`.  `allocOk` records whether
the platform satisfied the allocation; on failure `malloc` returns the
null pointer and no block exists. -/
def new (allocOk : Bool) : FixedSizedStack α N :=
  { pointer := allocOk
    buf := if allocOk then List.replicate N none else []
    curr_size := 0 }

/-- `FixedSizedStack::free`: if the pointer is already null, return
`false` (guaranteeing no double free); otherwise `libc::free` the block,
null the pointer, reset `curr_size` to 0 and return `true`.  The freed
block is gone, so `buf` becomes `[]`. -/
def free (s : FixedSizedStack α N) : FixedSizedStack α N × Bool :=
  if s.pointer = false then (s, false)
  else ({ pointer := false, buf := [], curr_size := 0 }, true)

/-- `FixedSizedStack::push`: if `curr_size >= N`, print the
stack-full diagnostic and return without mutating anything; otherwise
`memcpy` the value into slot `curr_size` and increment `curr_size`.
The emitted diagnostic, if any, is returned alongside the new state. -/
def push (s : FixedSizedStack α N) (v : α) : FixedSizedStack α N × Option Notice :=
  if N ≤ s.curr_size then (s, some Notice.pushStackFull)
  else ({ s with buf := s.buf.set s.curr_size (some v)
                 curr_size := s.curr_size + 1 }, none)

/-- `FixedSizedStack::pop`: if `curr_size == 0`, print the stack-empty
diagnostic and return the null pointer (`none`); otherwise decrement
`curr_size` and return the raw pointer `self.pointer.add(curr_size - 1)`,
modelled as the slot index `some (curr_size - 1)`.  The slot itself is
not touched. -/
def pop (s : FixedSizedStack α N) : FixedSizedStack α N × Option Nat :=
  if s.curr_size = 0 then (s, none)
  else ({ s with curr_size := s.curr_size - 1 }, some (s.curr_size - 1))

/-- Dereference the raw pointer `self.pointer.add(i)` in state `s`:
read slot `i` of the live block.  `none` models an invalid read
(out of the block, or an uninitialized slot). -/
def readPtr (s : FixedSizedStack α N) (i : Nat) : Option α :=
  s.buf.getD i none

/-- A fault raised by the `Deref` implementation (a panic in the Rust
code). -/
inductive DerefFault where
  /-- `self.curr_size - 1` underflows when `curr_size == 0`
  (arithmetic-overflow panic) -/
  | subUnderflow : DerefFault
  /-- `as_ref().unwrap()` on an invalid reference (null pointer or a
  slot outside the initialized block) -/
  | invalidRef : DerefFault
deriving DecidableEq

/-- `impl Deref for FixedSizedStack`: compute `offset = curr_size - 1`
(this subtraction underflows, hence faults, when `curr_size == 0`), then
return a reference to slot `offset`; `as_ref().unwrap()` faults if that
reference is invalid. -/
def deref (s : FixedSizedStack α N) : Except DerefFault α :=
  if s.curr_size = 0 then Except.error DerefFault.subUnderflow
  else
    match s.buf.getD (s.curr_size - 1) none with
    | some v => Except.ok v
    | none => Except.error DerefFault.invalidRef

/-- `FixedSizedStack::empty`. -/
def empty (s : FixedSizedStack α N) : Bool :=
  s.curr_size = 0

/-- Push a whole list of values, left to right (the driver loop
`for i in 1..=STACK_SIZE { stack.push(&i) }`). -/
def pushAll (s : FixedSizedStack α N) (vs : List α) : FixedSizedStack α N :=
  vs.foldl (fun t v => (push t v).1) s

/-- Pop once and immediately read the returned raw pointer, as the driver
loop does with `*e`. -/
def popRead (s : FixedSizedStack α N) : FixedSizedStack α N × Option α :=
  let p := pop s
  (p.1, p.2.bind fun i => readPtr p.1 i)

/-- Pop (and read) `k` times in a row, collecting the observed values. -/
def popN : FixedSizedStack α N → Nat → List (Option α)
  | _, 0 => []
  | s, k + 1 =>
    let p := popRead s
    p.2 :: popN p.1 k

/-- The abstraction relation: `s` is a live stack currently holding the
values `vs` (oldest first), i.e. the pointer is non-null, `curr_size`
equals the number of held values, slots `0 .. vs.length - 1` of the block
hold exactly `vs`, and the block has `N` slots in total. -/
def Inv (s : FixedSizedStack α N) (vs : List α) : Prop :=
  s.pointer = true ∧ s.curr_size = vs.length ∧
    ∃ t : List (Option α), s.buf = vs.map some ++ t ∧ vs.length + t.length = N

/-- Writing at the index just past a prefix writes at the head of the
suffix. -/
theorem set_append_len {β : Type} (l t : List β) (x : β) :
    (l ++ t).set l.length x = l ++ t.set 0 x := by
  induction l with
  | nil => rfl
  | cons a l ih => simp [ih]

/-- Reading at the index just past a prefix reads the head of the
suffix. -/
theorem getD_append_len {β : Type} (l : List β) (x : β) (t : List β) (d : β) :
    (l ++ x :: t).getD l.length d = x := by
  induction l with
  | nil => rfl
  | cons a l ih => simpa using ih

/-- Reading back an in-range slot that was just written. -/
theorem getD_set_self {β : Type} (l : List β) (i : Nat) (x d : β)
    (h : i < l.length) : (l.set i x).getD i d = x := by
  induction l generalizing i with
  | nil => simp at h
  | cons a l ih =>
    cases i with
    | zero => rfl
    | succ i => simpa using ih i (by simpa using h)

/-- The freshly constructed stack is a live stack holding no values. -/
theorem Inv_new : Inv (new true : FixedSizedStack α N) [] :=
  ⟨rfl, rfl, List.replicate N none, by simp [new], by simp⟩

/-- A push below capacity succeeds (no diagnostic) and appends the value
to the held sequence. -/
theorem push_Inv {s : FixedSizedStack α N} {vs : List α} (h : Inv s vs)
    (hlt : vs.length < N) (v : α) :
    Inv (push s v).1 (vs ++ [v]) ∧ (push s v).2 = none := by
  obtain ⟨hp, hs, t, hb, hlen⟩ := h
  have hN : ¬ N ≤ s.curr_size := by omega
  obtain ⟨c, t', rfl⟩ : ∃ c t', t = c :: t' := by
    cases t with
    | nil => exact absurd hlen (by simpa using Nat.ne_of_lt hlt)
    | cons c t' => exact ⟨c, t', rfl⟩
  have hbuf : (push s v).1.buf = (vs ++ [v]).map some ++ t' := by
    simp only [push, if_neg hN]
    rw [hb, hs]
    have hset := set_append_len (vs.map some) (c :: t') (some v)
    rw [List.length_map] at hset
    rw [hset]
    simp
  refine ⟨⟨?_, ?_, t', hbuf, ?_⟩, ?_⟩
  · simpa only [push, if_neg hN] using hp
  · simp only [push, if_neg hN]
    simp [hs]
  · simp only [List.length_append, List.length_cons, List.length_nil] at hlen ⊢
    omega
  · simp only [push, if_neg hN]

/-- Pushing a list of values onto a live stack below capacity appends
them all. -/
theorem pushAll_Inv {s : FixedSizedStack α N} {vs : List α} (h : Inv s vs)
    (ws : List α) (hle : vs.length + ws.length ≤ N) :
    Inv (pushAll s ws) (vs ++ ws) := by
  induction ws generalizing s vs with
  | nil => simpa using h
  | cons w ws ih =>
    have hlt : vs.length < N := by simp at hle; omega
    have h1 := push_Inv h hlt w
    have h2 := ih h1.1 (by simp at hle ⊢; omega)
    simpa [pushAll] using h2

/-- Popping a nonempty live stack returns a pointer to the old top slot,
whose content is the most recently pushed value, and removes exactly that
value from the held sequence. -/
theorem pop_Inv {s : FixedSizedStack α N} {vs : List α} {v : α}
    (h : Inv s (vs ++ [v])) :
    pop s = ({ s with curr_size := vs.length }, some vs.length) ∧
      Inv (pop s).1 vs ∧ readPtr (pop s).1 vs.length = some v := by
  obtain ⟨hp, hs, t, hb, hlen⟩ := h
  have hs' : s.curr_size = vs.length + 1 := by simpa using hs
  have hnz : ¬ s.curr_size = 0 := by omega
  have hpop : pop s = ({ s with curr_size := vs.length }, some vs.length) := by
    simp [pop, hs']
  have hb' : s.buf = vs.map some ++ some v :: t := by
    rw [hb]; simp
  refine ⟨hpop, ⟨?_, ?_, some v :: t, ?_, ?_⟩, ?_⟩
  · simpa [hpop] using hp
  · simp [hpop]
  · simpa [hpop] using hb'
  · simp only [List.length_append, List.length_cons, List.length_nil] at hlen ⊢
    omega
  · have := getD_append_len (vs.map some) (some v) t none
    rw [List.length_map] at this
    simp only [hpop, readPtr]
    simpa [hb'] using this

/-- Popping (and reading) as many times as there are held values returns
exactly those values, most recent first. -/
theorem popN_Inv {s : FixedSizedStack α N} {vs : List α} (h : Inv s vs) :
    popN s vs.length = vs.reverse.map some := by
  induction vs using List.reverseRecOn generalizing s with
  | nil => rfl
  | append_singleton ws v ih =>
    obtain ⟨hpop, hinv, hread⟩ := pop_Inv h
    have hlen : (ws ++ [v]).length = ws.length + 1 := by simp
    rw [hlen]
    show (popRead s).2 :: popN (popRead s).1 ws.length = _
    have h2 : popRead s = ((pop s).1, some v) := by
      simp only [popRead, hpop]
      simpa [hpop] using hread
    rw [h2]
    simp only [ih hinv]
    simp

/-- C1: for every capacity `N` and every sequence of `k ≤ N` pushed
values followed by `k` pops on a `FixedSizedStack`, the pops return
exactly the pushed values in strict reverse order of insertion. -/
theorem C1_lifo_pop_reverse {α : Type} {N : Nat} (vs : List α)
    (h : vs.length ≤ N) :
    popN (pushAll (new true : FixedSizedStack α N) vs) vs.length
      = vs.reverse.map some := by
  have h1 := pushAll_Inv (Inv_new (α := α) (N := N)) vs (by simpa using h)
  simpa using popN_Inv (by simpa using h1)

/-- Witness for C1, the concrete scenario of the spec: capacity 10,
pushes 1..=10, pop sequence 10,9,...,1. -/
theorem C1_lifo_pop_reverse_witness :
    List.length [1,2,3,4,5,6,7,8,9,10] ≤ 10 ∧
    popN (pushAll (new true : FixedSizedStack Nat 10) [1,2,3,4,5,6,7,8,9,10])
        (List.length [1,2,3,4,5,6,7,8,9,10])
      = List.map some (List.reverse [1,2,3,4,5,6,7,8,9,10]) :=
  ⟨by decide, C1_lifo_pop_reverse [1,2,3,4,5,6,7,8,9,10] (by decide)⟩

/-- C2: pushing onto a full stack (`curr_size = N`) reports the
capacity-exceeded diagnostic and leaves the entire state (pointer,
block contents and `curr_size`) unchanged, so `curr_size` never grows
past `N`. -/
theorem C2_push_full_error {α : Type} {N : Nat} (s : FixedSizedStack α N)
    (v : α) (h : s.curr_size = N) :
    push s v = (s, some Notice.pushStackFull) ∧ (push s v).1.curr_size = N := by
  have hN : N ≤ s.curr_size := by omega
  exact ⟨by simp [push, hN], by simp [push, hN, h]⟩

/-- Witness for C2: a full stack of capacity 2. -/
theorem C2_push_full_error_witness :
    (⟨true, [some 1, some 2], 2⟩ : FixedSizedStack Nat 2).curr_size = 2 ∧
    (push (⟨true, [some 1, some 2], 2⟩ : FixedSizedStack Nat 2) 7
        = (⟨true, [some 1, some 2], 2⟩, some Notice.pushStackFull) ∧
      (push (⟨true, [some 1, some 2], 2⟩ : FixedSizedStack Nat 2) 7).1.curr_size = 2) :=
  ⟨rfl, C2_push_full_error (⟨true, [some 1, some 2], 2⟩ : FixedSizedStack Nat 2) 7 rfl⟩

/-- C3: popping an empty stack (`curr_size = 0`) returns the null
pointer (an empty result), leaves the state unchanged and keeps
`curr_size` at 0 (no underflow). -/
theorem C3_pop_empty_noop {α : Type} {N : Nat} (s : FixedSizedStack α N)
    (h : s.curr_size = 0) :
    pop s = (s, none) ∧ (pop s).1.curr_size = 0 := by
  exact ⟨by simp [pop, h], by simp [pop, h]⟩

/-- Witness for C3: the freshly constructed stack. -/
theorem C3_pop_empty_noop_witness :
    (new true : FixedSizedStack Nat 5).curr_size = 0 ∧
    (pop (new true : FixedSizedStack Nat 5) = (new true, none) ∧
      (pop (new true : FixedSizedStack Nat 5)).1.curr_size = 0) :=
  ⟨rfl, C3_pop_empty_noop (new true : FixedSizedStack Nat 5) rfl⟩

/-- C4: `free` on an allocated stack deallocates the block, nulls the
pointer and zeroes `curr_size`; every later call is a no-op returning
`false` (no deallocation, no fault, `curr_size` stays 0) — in
particular a second `free`, a `free` on any stack whose pointer is
already null, and a `free` after a failed allocation. -/
theorem C4_free_idempotent {α : Type} {N : Nat} (s : FixedSizedStack α N)
    (h : s.pointer = true) :
    free s = (⟨false, [], 0⟩, true) ∧
    free (free s).1 = ((free s).1, false) ∧
    (free s).1.curr_size = 0 ∧ (free s).1.pointer = false ∧
    (∀ t : FixedSizedStack α N, t.pointer = false → free t = (t, false)) ∧
    free (new false : FixedSizedStack α N) = (new false, false) ∧
    (new false : FixedSizedStack α N).curr_size = 0 := by
  have h1 : free s = (⟨false, [], 0⟩, true) := by simp [free, h]
  refine ⟨h1, ?_, ?_, ?_, ?_, ?_, rfl⟩
  · rw [h1]; simp [free]
  · rw [h1]
  · rw [h1]
  · intro t ht; simp [free, ht]
  · simp [free, new]

/-- Witness for C4: an allocated stack of capacity 3. -/
theorem C4_free_idempotent_witness :
    (new true : FixedSizedStack Nat 3).pointer = true ∧
    (free (new true : FixedSizedStack Nat 3) = (⟨false, [], 0⟩, true) ∧
      free (free (new true : FixedSizedStack Nat 3)).1
        = ((free (new true : FixedSizedStack Nat 3)).1, false) ∧
      (free (new true : FixedSizedStack Nat 3)).1.curr_size = 0 ∧
      (free (new true : FixedSizedStack Nat 3)).1.pointer = false ∧
      (∀ t : FixedSizedStack Nat 3, t.pointer = false → free t = (t, false)) ∧
      free (new false : FixedSizedStack Nat 3) = (new false, false) ∧
      (new false : FixedSizedStack Nat 3).curr_size = 0) :=
  ⟨rfl, C4_free_idempotent (new true : FixedSizedStack Nat 3) rfl⟩

/-- C5: the size invariant `0 ≤ curr_size ≤ N` holds after `new` and is
preserved by `push`, `pop` and `free` (the `Deref` implementation takes
the state as input only and cannot change it; the lower bound holds
because `curr_size` is a natural number). -/
theorem C5_size_invariant {α : Type} {N : Nat} (b : Bool)
    (s : FixedSizedStack α N) (v : α) (h : s.curr_size ≤ N) :
    (new b : FixedSizedStack α N).curr_size = 0 ∧
    (new b : FixedSizedStack α N).curr_size ≤ N ∧
    (push s v).1.curr_size ≤ N ∧
    (pop s).1.curr_size ≤ N ∧
    (free s).1.curr_size ≤ N := by
  refine ⟨rfl, by simp [new], ?_, ?_, ?_⟩
  · by_cases hc : N ≤ s.curr_size
    · simpa [push, hc] using h
    · simp [push, hc]
      omega
  · by_cases hc : s.curr_size = 0
    · simp [pop, hc]
    · simp [pop, hc]
      omega
  · by_cases hc : s.pointer = false
    · simpa [free, hc] using h
    · simp [free, hc]

/-- Witness for C5: a live stack of capacity 3 holding one value. -/
theorem C5_size_invariant_witness :
    (⟨true, [some 4, none, none], 1⟩ : FixedSizedStack Nat 3).curr_size ≤ 3 ∧
    ((new true : FixedSizedStack Nat 3).curr_size = 0 ∧
      (new true : FixedSizedStack Nat 3).curr_size ≤ 3 ∧
      (push (⟨true, [some 4, none, none], 1⟩ : FixedSizedStack Nat 3) 9).1.curr_size ≤ 3 ∧
      (pop (⟨true, [some 4, none, none], 1⟩ : FixedSizedStack Nat 3)).1.curr_size ≤ 3 ∧
      (free (⟨true, [some 4, none, none], 1⟩ : FixedSizedStack Nat 3)).1.curr_size ≤ 3) :=
  ⟨by decide,
    C5_size_invariant true (⟨true, [some 4, none, none], 1⟩ : FixedSizedStack Nat 3) 9
      (by decide)⟩

/-- C6: popping a live stack holding `vs ++ [v]` (so `curr_size ≥ 1`)
decrements `curr_size` by exactly one and returns a pointer to the slot
at index `curr_size - 1` (the new top slot), whose content is `v`, the
most recently pushed element; reading that pointer hands `v` to the
caller. -/
theorem C6_pop_top {α : Type} {N : Nat} (s : FixedSizedStack α N)
    (vs : List α) (v : α) (h : Inv s (vs ++ [v])) :
    (pop s).1.curr_size + 1 = s.curr_size ∧
    (pop s).2 = some (s.curr_size - 1) ∧
    readPtr (pop s).1 (s.curr_size - 1) = some v := by
  obtain ⟨hpop, hinv, hread⟩ := pop_Inv h
  have hs : s.curr_size = vs.length + 1 := by
    obtain ⟨_, h2, _⟩ := h
    simpa using h2
  refine ⟨by simp [hpop, hs], by simp [hpop, hs], ?_⟩
  rw [hs]
  simpa using hread

/-- Witness for C6: a capacity-3 stack holding 5 then 7. -/
theorem C6_pop_top_witness :
    Inv (⟨true, [some 5, some 7, none], 2⟩ : FixedSizedStack Nat 3) ([5] ++ [7]) ∧
    ((pop (⟨true, [some 5, some 7, none], 2⟩ : FixedSizedStack Nat 3)).1.curr_size + 1
        = (⟨true, [some 5, some 7, none], 2⟩ : FixedSizedStack Nat 3).curr_size ∧
      (pop (⟨true, [some 5, some 7, none], 2⟩ : FixedSizedStack Nat 3)).2
        = some ((⟨true, [some 5, some 7, none], 2⟩ : FixedSizedStack Nat 3).curr_size - 1) ∧
      readPtr (pop (⟨true, [some 5, some 7, none], 2⟩ : FixedSizedStack Nat 3)).1
          ((⟨true, [some 5, some 7, none], 2⟩ : FixedSizedStack Nat 3).curr_size - 1)
        = some 7) :=
  ⟨⟨rfl, rfl, [none], rfl, rfl⟩,
    C6_pop_top (⟨true, [some 5, some 7, none], 2⟩ : FixedSizedStack Nat 3) [5] 7
      ⟨rfl, rfl, [none], rfl, rfl⟩⟩

/-- C7 counterexample: dereferencing (peeking) the empty stack does NOT
return an empty result.  The `Deref` implementation computes
`self.curr_size - 1`, which underflows when `curr_size == 0`, so the
operation faults (an arithmetic-overflow panic); its return type `&T`
could not carry an empty result in the first place. -/
theorem C7_deref_empty_counterexample :
    deref (new true : FixedSizedStack Nat 10)
      = Except.error DerefFault.subUnderflow := rfl

/-- C7 (amended): dereferencing (peeking) a stack faults when
`curr_size = 0` (the offset computation underflows); on a live stack
holding `vs ++ [v]` it returns a read-only view of `v`, the element at
slot `curr_size - 1`, and it mutates nothing (`deref` consumes the state
only as input, so `curr_size`, the pointer and the block are untouched). -/
theorem C7_deref_top {α : Type} {N : Nat} (s : FixedSizedStack α N)
    (vs : List α) (v : α) (h : s.curr_size = 0 ∨ Inv s (vs ++ [v])) :
    deref s = (if s.curr_size = 0 then Except.error DerefFault.subUnderflow
               else Except.ok v) := by
  rcases h with h0 | hinv
  · simp [deref, h0]
  · obtain ⟨hp, hs0, t, hb, hlen⟩ := hinv
    have hs : s.curr_size = vs.length + 1 := by simpa using hs0
    have hb' : s.buf = vs.map some ++ some v :: t := by rw [hb]; simp
    have hget : s.buf.getD vs.length none = some v := by
      have hg := getD_append_len (vs.map some) (some v) t none
      rw [List.length_map] at hg
      rw [hb']
      exact hg
    have hnz : ¬ s.curr_size = 0 := by omega
    unfold deref
    rw [if_neg hnz, if_neg hnz, hs]
    simp only [Nat.add_sub_cancel]
    rw [hget]

/-- Witness for C7 (amended): a capacity-3 stack holding 5 then 7. -/
theorem C7_deref_top_witness :
    ((⟨true, [some 5, some 7, none], 2⟩ : FixedSizedStack Nat 3).curr_size = 0 ∨
      Inv (⟨true, [some 5, some 7, none], 2⟩ : FixedSizedStack Nat 3) ([5] ++ [7])) ∧
    deref (⟨true, [some 5, some 7, none], 2⟩ : FixedSizedStack Nat 3)
      = (if (⟨true, [some 5, some 7, none], 2⟩ : FixedSizedStack Nat 3).curr_size = 0
         then Except.error DerefFault.subUnderflow else Except.ok 7) :=
  ⟨Or.inr ⟨rfl, rfl, [none], rfl, rfl⟩,
    C7_deref_top (⟨true, [some 5, some 7, none], 2⟩ : FixedSizedStack Nat 3) [5] 7
      (Or.inr ⟨rfl, rfl, [none], rfl, rfl⟩)⟩

/-- C8: constructing, pushing `k ≤ N` elements and releasing always
leads to the same released state regardless of the pushed values, and a
re-constructed stack is empty (`curr_size = 0`) with an all-fresh block:
no residual state is observable across allocations. -/
theorem C8_round_trip {α : Type} {N : Nat} (vs ws : List α)
    (hv : vs.length ≤ N) (hw : ws.length ≤ N) :
    (free (pushAll (new true : FixedSizedStack α N) vs)).1 = ⟨false, [], 0⟩ ∧
    (free (pushAll (new true : FixedSizedStack α N) vs)).1
      = (free (pushAll (new true : FixedSizedStack α N) ws)).1 ∧
    (new true : FixedSizedStack α N).curr_size = 0 ∧
    (new true : FixedSizedStack α N).buf = List.replicate N none := by
  have h1 := pushAll_Inv (Inv_new (α := α) (N := N)) vs (by simpa using hv)
  have h2 := pushAll_Inv (Inv_new (α := α) (N := N)) ws (by simpa using hw)
  have f1 : (free (pushAll (new true : FixedSizedStack α N) vs)).1 = ⟨false, [], 0⟩ := by
    simp [free, h1.1]
  have f2 : (free (pushAll (new true : FixedSizedStack α N) ws)).1 = ⟨false, [], 0⟩ := by
    simp [free, h2.1]
  exact ⟨f1, by rw [f1, f2], rfl, by simp [new]⟩

/-- Witness for C8: capacity 4, two different push histories. -/
theorem C8_round_trip_witness :
    List.length [1, 2, 3] ≤ 4 ∧ List.length [9] ≤ 4 ∧
    ((free (pushAll (new true : FixedSizedStack Nat 4) [1, 2, 3])).1 = ⟨false, [], 0⟩ ∧
      (free (pushAll (new true : FixedSizedStack Nat 4) [1, 2, 3])).1
        = (free (pushAll (new true : FixedSizedStack Nat 4) [9])).1 ∧
      (new true : FixedSizedStack Nat 4).curr_size = 0 ∧
      (new true : FixedSizedStack Nat 4).buf = List.replicate 4 none) :=
  ⟨by decide, by decide, C8_round_trip [1, 2, 3] [9] (by decide) (by decide)⟩

/-- C9: popping a nonempty stack changes only `curr_size`: the pointer
and the whole block are untouched (the popped slot is not cleared), the
returned pointer is the address of slot `curr_size - 1` of the
still-live block, and a subsequent push overwrites exactly that slot, so
the pointer then reads the newly pushed value. -/
theorem C9_pop_frame {α : Type} {N : Nat} (s : FixedSizedStack α N) (w : α)
    (h1 : 1 ≤ s.curr_size) (h2 : s.curr_size ≤ N)
    (h3 : s.curr_size ≤ s.buf.length) :
    (pop s).1.buf = s.buf ∧
    (pop s).1.pointer = s.pointer ∧
    (pop s).2 = some (s.curr_size - 1) ∧
    readPtr (pop s).1 (s.curr_size - 1) = s.buf.getD (s.curr_size - 1) none ∧
    (push (pop s).1 w).1.buf.getD (s.curr_size - 1) none = some w := by
  have hnz : ¬ s.curr_size = 0 := by omega
  have hpop : pop s = ({ s with curr_size := s.curr_size - 1 }, some (s.curr_size - 1)) := by
    simp [pop, hnz]
  have hlt : ¬ N ≤ s.curr_size - 1 := by omega
  refine ⟨by simp [hpop], by simp [hpop], by simp [hpop],
    by simp [hpop, readPtr], ?_⟩
  simp only [hpop, push, if_neg hlt]
  exact getD_set_self s.buf (s.curr_size - 1) (some w) none (by omega)

/-- Witness for C9: a capacity-3 stack holding 5 then 7; pushing 9 after
the pop overwrites the slot the popped pointer aliases. -/
theorem C9_pop_frame_witness :
    1 ≤ (⟨true, [some 5, some 7, none], 2⟩ : FixedSizedStack Nat 3).curr_size ∧
    (⟨true, [some 5, some 7, none], 2⟩ : FixedSizedStack Nat 3).curr_size ≤ 3 ∧
    (⟨true, [some 5, some 7, none], 2⟩ : FixedSizedStack Nat 3).curr_size
      ≤ (⟨true, [some 5, some 7, none], 2⟩ : FixedSizedStack Nat 3).buf.length ∧
    ((pop (⟨true, [some 5, some 7, none], 2⟩ : FixedSizedStack Nat 3)).1.buf
        = (⟨true, [some 5, some 7, none], 2⟩ : FixedSizedStack Nat 3).buf ∧
      (pop (⟨true, [some 5, some 7, none], 2⟩ : FixedSizedStack Nat 3)).1.pointer
        = (⟨true, [some 5, some 7, none], 2⟩ : FixedSizedStack Nat 3).pointer ∧
      (pop (⟨true, [some 5, some 7, none], 2⟩ : FixedSizedStack Nat 3)).2
        = some ((⟨true, [some 5, some 7, none], 2⟩ : FixedSizedStack Nat 3).curr_size - 1) ∧
      readPtr (pop (⟨true, [some 5, some 7, none], 2⟩ : FixedSizedStack Nat 3)).1
          ((⟨true, [some 5, some 7, none], 2⟩ : FixedSizedStack Nat 3).curr_size - 1)
        = (⟨true, [some 5, some 7, none], 2⟩ : FixedSizedStack Nat 3).buf.getD
            ((⟨true, [some 5, some 7, none], 2⟩ : FixedSizedStack Nat 3).curr_size - 1) none ∧
      (push (pop (⟨true, [some 5, some 7, none], 2⟩ : FixedSizedStack Nat 3)).1 9).1.buf.getD
          ((⟨true, [some 5, some 7, none], 2⟩ : FixedSizedStack Nat 3).curr_size - 1) none
        = some 9) :=
  ⟨by decide, by decide, by decide,
    C9_pop_frame (⟨true, [some 5, some 7, none], 2⟩ : FixedSizedStack Nat 3) 9
      (by decide) (by decide) (by decide)⟩

/-- C10: `free` returns `true` exactly when the pointer was non-null
before the call, and after any `free` every further `free` returns
`false`: the first effective release reports the deallocation, all later
calls report none. -/
theorem C10_free_reports_dealloc {α : Type} {N : Nat} (s : FixedSizedStack α N) :
    (free s).2 = s.pointer ∧ (free (free s).1).2 = false := by
  cases hp : s.pointer <;> simp [free, hp]

end FixedSizedStack

end UnsafeOps
